import Mathlib

/-
Shallow embedding of the `eye` Cloudflare Images relay worker
(`src/index.ts`): the catalog data model, cache-expiry policy, paginated
catalog fetch, fuzzy lookup and variant resolution, relay response
assembly, and the error boundary, together with theorems settling the
specification claims about them.
-/

namespace Eye

/-- Model of the JS string prefix test `s.startsWith(pre)` on char lists:
`listPrefixOf pre l` is true when `pre` is a prefix of `l`. -/
def listPrefixOf : List Char → List Char → Bool
  | [], _ => true
  | _ :: _, [] => false
  | a :: as, b :: bs => a == b && listPrefixOf as bs

/-- Model of the JS substring test `s.includes(sub)` on char lists:
`listInfixOf sub l` is true when `sub` occurs contiguously in `l`. -/
def listInfixOf (sub : List Char) : List Char → Bool
  | [] => sub.isEmpty
  | c :: rest => listPrefixOf sub (c :: rest) || listInfixOf sub rest

/-- JS `s.startsWith(pre)`. -/
def jsStartsWith (s pre : String) : Bool :=
  listPrefixOf pre.data s.data

/-- JS `s.endsWith(post)`. -/
def jsEndsWith (s post : String) : Bool :=
  listPrefixOf post.data.reverse s.data.reverse

/-- JS `s.includes(sub)`. -/
def jsIncludes (s sub : String) : Bool :=
  listInfixOf sub.data s.data

/-- The `Image` record of `src/index.ts` (one Cloudflare Images catalog
entry). -/
structure Image where
  id : String
  filename : String
  uploaded : String
  requireSignedURLs : Bool
  variants : List String
deriving DecidableEq, Repr

/-- `BATCH_SIZE` from `src/index.ts`: pages of 100 images are requested. -/
def BATCH_SIZE : Nat := 100

/-- Embedding of the recursive `fetchAll` inside `fetchImages`: the remote
source is modelled as the finite list of pages it serves at page numbers
1, 2, ...; a request beyond the end of that list returns an empty page.
`fetchAll` returns the accumulated images together with the number of page
requests issued: it requests the next page exactly when the page just
fetched contained exactly `BATCH_SIZE` images. -/
def fetchAll : List (List Image) → List Image × Nat
  | [] => ([], 1)
  | p :: rest =>
    if p.length = BATCH_SIZE then
      let r := fetchAll rest
      (p ++ r.1, r.2 + 1)
    else (p, 1)

/-- A character matched by the regex class `[A-z]` used in `stripExt`
(note: this JS class spans code points 65–122, including `[\]^_` and
the backtick, exactly as the source regex does). -/
def isExtChar (c : Char) : Bool :=
  'A' ≤ c && c ≤ 'z'

/-- Embedding of `stripExt`: `filename.replace(/\.[A-z]+$/g, '')`.
The regex matches a final dot followed by one or more `[A-z]` characters
running to the end of the string; when such a suffix exists it is removed,
otherwise the string is unchanged. -/
def stripExt (s : String) : String :=
  if (s.data.reverse.takeWhile isExtChar).isEmpty then s
  else
    match s.data.reverse.dropWhile isExtChar with
    | '.' :: rest2 => String.mk rest2.reverse
    | _ => s

/-- The predicate tested on each entry by `findImage`:
`img.filename.startsWith(needle) || img.id.startsWith(needle)`. -/
def entryMatches (needle : String) (img : Image) : Bool :=
  jsStartsWith img.filename needle || jsStartsWith img.id needle

/-- Embedding of `findImage`: a single linear scan returning the first
entry whose filename or id starts with the needle. -/
def findImage (needle : String) (haystack : List Image) : Option Image :=
  haystack.find? (entryMatches needle)

/-- The error taxonomy as thrown by `src/index.ts`. The last two arise from
the JS runtime when the cached catalog value is absent (`JSON.parse(null)`
yields `null`, and `null.find` throws a `TypeError`) or corrupt
(`JSON.parse` throws a `SyntaxError`); their messages are engine-generated
and modelled here as representative texts. -/
inductive AppErr where
  | imageNotFound (needle : String)
  | variantNotFound (name : String)
  | kvNamespaceMissing
  | invalidCredentials
  | upstreamFetch (msg : String)
  | cacheNull
  | cacheCorrupt
deriving DecidableEq, Repr

/-- The `err.message` seen by the error boundary for each error. -/
def errMessage : AppErr → String
  | AppErr.imageNotFound needle => "Image not found: " ++ needle
  | AppErr.variantNotFound name => "Variant not found: " ++ name
  | AppErr.kvNamespaceMissing => "KV namespace not found"
  | AppErr.invalidCredentials => "Invalid credentials"
  | AppErr.upstreamFetch msg => msg
  | AppErr.cacheNull => "Cannot read properties of null"
  | AppErr.cacheCorrupt => "Unexpected token in JSON"

/-- Classification per the spec taxonomy: `NotFoundError` means no matching
entry or no matching variant. -/
def isNotFoundError : AppErr → Bool
  | AppErr.imageNotFound _ => true
  | AppErr.variantNotFound _ => true
  | _ => false

/-- Embedding of the error boundary
`app.onError((err, ctx) => ctx.text(err.message, err.message.includes('not found') ? 404 : 500))`. -/
def onErrorStatus (msg : String) : Nat :=
  if jsIncludes msg "not found" then 404 else 500

/-- Embedding of `getImage`'s lookup core once a catalog is in hand:
strip the extension from the needle, scan with `findImage`, and throw
`Image not found` when nothing matches. -/
def resolveEntry (needle : String) (images : List Image) : Except AppErr Image :=
  match findImage (stripExt needle) images with
  | some img => Except.ok img
  | none => Except.error (AppErr.imageNotFound needle)

/-- Embedding of variant resolution in the relay route: default the
requested variant to `public` (the `??` operator), take the first variant
URL ending with the requested name, and throw `Variant not found`
otherwise. -/
def resolveVariant (image : Image) (requested : Option String) : Except AppErr String :=
  let variantNeedle := requested.getD "public"
  match image.variants.find? (fun v => jsEndsWith v variantNeedle) with
  | some url => Except.ok url
  | none => Except.error (AppErr.variantNotFound variantNeedle)

/-- Millisecond timestamps and TTLs, as produced by JS `Date.getTime()`. -/
def TTL_MS : Int := 1000 * 60 * 60 * 24

/-- The repeated expiry comparison in `isExpired`:
`!lastCached || new Date(lastCached).getTime() < new Date().getTime() - ttl`. -/
def jsTimeExpired (lastCached : Option Int) (now ttl : Int) : Bool :=
  match lastCached with
  | none => true
  | some t => decide (t < now - ttl)

/-- Embedding of `isExpired` from `src/index.ts`, including its three
candidate TTLs and the `dev`/`longTerm` selection flags as written. -/
def isExpired (lastCached : Option Int) (now : Int) : Bool :=
  let expired1hour := jsTimeExpired lastCached now (1000 * 60 * 60)
  let expired30Seconds := jsTimeExpired lastCached now (1000 * 30)
  let expired24hours := jsTimeExpired lastCached now (1000 * 60 * 60 * 24)
  let dev := false
  let longTerm := true
  if dev then expired30Seconds else if longTerm then expired24hours else expired1hour

/-- The KV state read by `getImage`: the stored timestamp and the stored
`KV_IMAGES` value (`none` = key absent; `some none` = present but not a
valid serialized catalog; `some (some imgs)` = valid). -/
structure CacheState where
  lastCached : Option Int
  images : Option (Option (List Image))
deriving DecidableEq

/-- What `JSON.parse(await kv.get('KV_IMAGES'))` followed by `.find` does
with the stored value on the not-expired path: an absent value makes
`JSON.parse` yield `null` and the subsequent `.find` throw a `TypeError`;
a corrupt value makes `JSON.parse` throw; a valid value deserializes. -/
def readCachedImages : Option (Option (List Image)) → Except AppErr (List Image)
  | none => Except.error AppErr.cacheNull
  | some none => Except.error AppErr.cacheCorrupt
  | some (some imgs) => Except.ok imgs

/-- Embedding of `getImage`'s catalog acquisition:
`(!expired) ? JSON.parse(await kv.get('KV_IMAGES')) : fetchImages(ctx)`. -/
def lookupCatalog (st : CacheState) (now : Int) (remote : List (List Image)) :
    Except AppErr (List Image) :=
  if isExpired st.lastCached now then Except.ok (fetchAll remote).1
  else readCachedImages st.images

/-- Whether `getImage` invokes `fetchImages` (a refresh) on a given state. -/
def refreshCalled (st : CacheState) (now : Int) : Bool :=
  isExpired st.lastCached now

/-- Model of an HTTP response as handled by the relay route. -/
structure JsResponse where
  status : Nat
  headers : List (String × String)
  body : String
deriving DecidableEq

/-- `new Response(res.body, res)`: same status, headers and body. -/
def cloneResponse (r : JsResponse) : JsResponse :=
  { status := r.status, headers := r.headers, body := r.body }

/-- `headers.append(name, value)`: adds a header after the existing ones. -/
def appendHeader (r : JsResponse) (name value : String) : JsResponse :=
  { r with headers := r.headers ++ [(name, value)] }

/-- Embedding of the relay route's response assembly: clone the upstream
variant response, then append the Content-Disposition, X-Original-Url and
X-Image-Id headers exactly as `src/index.ts` does. -/
def relayResponse (variantResponse : JsResponse) (image : Image) (variantUrl : String) :
    JsResponse :=
  let nres := cloneResponse variantResponse
  let nres := appendHeader nres "Content-Disposition"
    ("inline; filename=\"" ++ image.filename ++ "\"")
  let nres := appendHeader nres "X-Original-Url" variantUrl
  let nres := appendHeader nres "X-Image-Id" image.id
  nres

/-- A settlement call on the `fetchImages` promise. -/
inductive SettleEvent where
  | resolveImages (imgs : List Image)
  | rejectErr (msg : String)
deriving DecidableEq

/-- The settlement calls `fetchImages` makes, in program order, when
pagination succeeds: it calls `resolve(images)` first, and only afterwards
runs the KV persistence whose failure calls `reject` at the end of the
chain. -/
def refreshSettleEvents (pages : List (List Image)) (persistOk : Bool) : List SettleEvent :=
  [SettleEvent.resolveImages (fetchAll pages).1]
    ++ (if persistOk then [] else [SettleEvent.rejectErr "KV put failed"])

/-- A JS promise settles with its first settlement call; later calls are
ignored. -/
def promiseOutcome (events : List SettleEvent) : Option SettleEvent :=
  events.head?

/-- An image with empty fields, used to build concrete catalogs. -/
def dummyImage : Image :=
  ⟨"", "", "", false, []⟩

theorem listPrefixOf_append_self (l t : List Char) : listPrefixOf l (l ++ t) = true := by
  induction l with
  | nil => rfl
  | cons a as ih => simp [listPrefixOf, ih]

theorem listPrefixOf_refl (l : List Char) : listPrefixOf l l = true := by
  have h := listPrefixOf_append_self l []
  simpa using h

theorem listInfixOf_of_listPrefixOf {sub l : List Char} (h : listPrefixOf sub l = true) :
    listInfixOf sub l = true := by
  cases l with
  | nil =>
    cases sub with
    | nil => rfl
    | cons a as => simp [listPrefixOf] at h
  | cons c rest => simp [listInfixOf, h]

theorem listInfixOf_append_self (pre sub t : List Char) :
    listInfixOf sub (pre ++ (sub ++ t)) = true := by
  induction pre with
  | nil => exact listInfixOf_of_listPrefixOf (listPrefixOf_append_self sub t)
  | cons c cs ih => simp [listInfixOf, ih]

theorem stripExt_isPrefix (s : String) : jsStartsWith s (stripExt s) = true := by
  unfold stripExt jsStartsWith
  split
  · exact listPrefixOf_refl _
  · split
    · next rest2 hmatch =>
      have hsplit :
          s.data.reverse.takeWhile isExtChar ++ s.data.reverse.dropWhile isExtChar
            = s.data.reverse := List.takeWhile_append_dropWhile ..
      rw [hmatch] at hsplit
      have hdata : s.data = rest2.reverse
          ++ ('.' :: (s.data.reverse.takeWhile isExtChar).reverse) := by
        have := congrArg List.reverse hsplit
        simpa [List.reverse_append] using this.symm
      rw [hdata]
      exact listPrefixOf_append_self ..
    · exact listPrefixOf_refl _

theorem fetchAll_cons_full {p : List Image} (rest : List (List Image))
    (hp : p.length = BATCH_SIZE) :
    fetchAll (p :: rest) = (p ++ (fetchAll rest).1, (fetchAll rest).2 + 1) := by
  simp [fetchAll, hp]

theorem onErrorStatus_notfound_mid {msg : String} (a b : List Char)
    (h : msg.data = a ++ ("not found".data ++ b)) :
    onErrorStatus msg = 404 := by
  unfold onErrorStatus jsIncludes
  rw [h, listInfixOf_append_self]
  rfl

theorem fetchAll_stops_at_short (full : List (List Image)) (short : List Image)
    (rest : List (List Image)) (hfull : ∀ p ∈ full, p.length = BATCH_SIZE)
    (hshort : short.length < BATCH_SIZE) :
    fetchAll (full ++ short :: rest) = (full.flatten ++ short, full.length + 1) := by
  induction full with
  | nil => simp [fetchAll, Nat.ne_of_lt hshort]
  | cons p ps ih =>
    have hp : p.length = BATCH_SIZE := hfull p (by simp)
    have hps : ∀ q ∈ ps, q.length = BATCH_SIZE := fun q hq => hfull q (by simp [hq])
    simp [fetchAll, hp, ih hps, List.append_assoc]

deriving instance DecidableEq for Except

/-- C1 counterexample: with needle `ab` and a catalog whose first entry
matches only by id (`id = abc`, `filename = zzz`) while its second entry
matches by filename (`filename = abd`), the resolver returns the first
entry. This refutes the claimed two-tier priority, under which the
filename-prefix match anywhere in the catalog would have to win. -/
theorem c1_counterexample :
    resolveEntry "ab" [⟨"abc", "zzz", "", false, []⟩, ⟨"qqq", "abd", "", false, []⟩]
      = Except.ok ⟨"abc", "zzz", "", false, []⟩
    ∧ jsStartsWith "zzz" "ab" = false
    ∧ jsStartsWith "abd" "ab" = true
    ∧ stripExt "ab" = "ab" := by decide

/-- C1 (amended): the Lookup Resolver performs a single linear scan and
returns the first entry, in catalog order, whose filename OR id starts
with the stripped needle; filename matches are not prioritized over id
matches across entries, and only when no entry matches either field does
it fail with `NotFoundError`. -/
theorem c1_first_match_single_scan (needle : String) (imgs : List Image) :
    (∀ e, resolveEntry needle imgs = Except.ok e →
      entryMatches (stripExt needle) e = true
      ∧ ∃ pre post, imgs = pre ++ e :: post
          ∧ ∀ x ∈ pre, entryMatches (stripExt needle) x = false)
    ∧ ((∀ x ∈ imgs, entryMatches (stripExt needle) x = false) →
      resolveEntry needle imgs = Except.error (AppErr.imageNotFound needle)) := by
  constructor
  · intro e h
    unfold resolveEntry at h
    split at h
    · next img hfind =>
      simp only [Except.ok.injEq] at h
      subst h
      unfold findImage at hfind
      obtain ⟨hpe, pre, post, hsplit, hpre⟩ := List.find?_eq_some.mp hfind
      exact ⟨hpe, pre, post, hsplit, fun x hx => by simpa using hpre x hx⟩
    · next => simp at h
  · intro hall
    have hnone : findImage (stripExt needle) imgs = none :=
      List.find?_eq_none.mpr (fun x hx => by simp [hall x hx])
    simp [resolveEntry, hnone]

/-- C1 witness: the amended theorem applied to the singleton catalog whose
entry matches the needle `ab` by filename. -/
theorem c1_first_match_single_scan_witness :
    entryMatches (stripExt "ab") ⟨"qqq", "abd", "", false, []⟩ = true
    ∧ ∃ pre post,
        [(⟨"qqq", "abd", "", false, []⟩ : Image)]
          = pre ++ (⟨"qqq", "abd", "", false, []⟩ : Image) :: post
        ∧ ∀ x ∈ pre, entryMatches (stripExt "ab") x = false :=
  (c1_first_match_single_scan "ab" [⟨"qqq", "abd", "", false, []⟩]).1
    ⟨"qqq", "abd", "", false, []⟩ (by decide)

/-- C2: the Catalog Fetcher requests successive pages and stops at the
first page holding fewer than `BATCH_SIZE = 100` entries, returning the
concatenation of all returned pages; in particular page sizes
[100, 100, 37] give 3 requests and 237 entries, and [100, 100, 100]
(followed by the trailing empty page) give 4 requests and 300 entries. -/
theorem c2_pagination_terminates (full : List (List Image)) (short : List Image)
    (rest : List (List Image)) (hfull : ∀ p ∈ full, p.length = BATCH_SIZE)
    (hshort : short.length < BATCH_SIZE) :
    fetchAll (full ++ short :: rest) = (full.flatten ++ short, full.length + 1)
    ∧ (fetchAll [List.replicate 100 dummyImage, List.replicate 100 dummyImage,
        List.replicate 37 dummyImage]).1.length = 237
    ∧ (fetchAll [List.replicate 100 dummyImage, List.replicate 100 dummyImage,
        List.replicate 37 dummyImage]).2 = 3
    ∧ (fetchAll [List.replicate 100 dummyImage, List.replicate 100 dummyImage,
        List.replicate 100 dummyImage]).1.length = 300
    ∧ (fetchAll [List.replicate 100 dummyImage, List.replicate 100 dummyImage,
        List.replicate 100 dummyImage]).2 = 4 := by
  have hr : (List.replicate (100 : Nat) dummyImage).length = BATCH_SIZE := by
    simp [BATCH_SIZE]
  have h237 := fetchAll_stops_at_short
    [List.replicate 100 dummyImage, List.replicate 100 dummyImage]
    (List.replicate 37 dummyImage) []
    (by intro p hp
        simp only [List.mem_cons, List.not_mem_nil, or_false] at hp
        rcases hp with rfl | rfl <;> exact hr)
    (by simp [BATCH_SIZE])
  have h300 : fetchAll [List.replicate (100 : Nat) dummyImage, List.replicate 100 dummyImage,
      List.replicate 100 dummyImage]
      = (List.replicate 100 dummyImage ++ (List.replicate 100 dummyImage
          ++ (List.replicate 100 dummyImage ++ [])), 4) := by
    rw [fetchAll_cons_full _ hr, fetchAll_cons_full _ hr, fetchAll_cons_full _ hr]
    simp [fetchAll]
  refine ⟨fetchAll_stops_at_short full short rest hfull hshort, ?_, ?_, ?_, ?_⟩
  · rw [show ([List.replicate (100 : Nat) dummyImage, List.replicate 100 dummyImage,
        List.replicate 37 dummyImage])
        = [List.replicate 100 dummyImage, List.replicate 100 dummyImage]
          ++ List.replicate 37 dummyImage :: [] from rfl, h237]
    simp only [List.flatten_cons, List.flatten_nil, List.append_nil, List.length_append,
      List.length_replicate]
  · rw [show ([List.replicate (100 : Nat) dummyImage, List.replicate 100 dummyImage,
        List.replicate 37 dummyImage])
        = [List.replicate 100 dummyImage, List.replicate 100 dummyImage]
          ++ List.replicate 37 dummyImage :: [] from rfl, h237]
    rfl
  · rw [h300]
    simp only [List.length_append, List.length_replicate, List.length_nil]
  · rw [h300]

/-- C2 witness: a source with one full page and one empty page: two
requests, one hundred entries. -/
theorem c2_pagination_terminates_witness :
    fetchAll ([List.replicate 100 dummyImage] ++ [] :: [])
      = ([List.replicate 100 dummyImage].flatten ++ [],
          [List.replicate 100 dummyImage].length + 1) :=
  (c2_pagination_terminates [List.replicate 100 dummyImage] [] []
    (by simp [BATCH_SIZE]) (by simp [BATCH_SIZE])).1

/-- C3 counterexample: the boundary classifies by the message substring
`not found`, so the `ConfigurationError` message `KV namespace not found`
is answered with 404, although it is not a `NotFoundError`; the claim
requires 500 for it. -/
theorem c3_counterexample :
    onErrorStatus (errMessage AppErr.kvNamespaceMissing) = 404
    ∧ isNotFoundError AppErr.kvNamespaceMissing = false := by decide

/-- C3 (amended): the boundary returns 404 exactly when the error message
contains the substring `not found` and 500 otherwise: both `NotFoundError`
messages always yield 404, but so does the `ConfigurationError`
`KV namespace not found`; errors whose messages lack the substring (such
as `Invalid credentials` or an upstream fetch failure) yield 500. -/
theorem c3_status_by_message (e : AppErr) (n v m : String) :
    onErrorStatus (errMessage e)
      = (if jsIncludes (errMessage e) "not found" then 404 else 500)
    ∧ onErrorStatus (errMessage (AppErr.imageNotFound n)) = 404
    ∧ onErrorStatus (errMessage (AppErr.variantNotFound v)) = 404
    ∧ onErrorStatus (errMessage AppErr.kvNamespaceMissing) = 404
    ∧ (jsIncludes m "not found" = false →
        onErrorStatus (errMessage (AppErr.upstreamFetch m)) = 500)
    ∧ onErrorStatus (errMessage AppErr.invalidCredentials) = 500 := by
  refine ⟨rfl, ?_, ?_, by decide, ?_, by decide⟩
  · have h1 : ("Image not found: " : String).data
        = "Image ".data ++ ("not found".data ++ ": ".data) := by decide
    exact onErrorStatus_notfound_mid "Image ".data (": ".data ++ n.data)
      (by simp only [errMessage]
          rw [String.data_append, h1, List.append_assoc, List.append_assoc])
  · have h1 : ("Variant not found: " : String).data
        = "Variant ".data ++ ("not found".data ++ ": ".data) := by decide
    exact onErrorStatus_notfound_mid "Variant ".data (": ".data ++ v.data)
      (by simp only [errMessage]
          rw [String.data_append, h1, List.append_assoc, List.append_assoc])
  · intro h
    simp [errMessage, onErrorStatus, h]

/-- C3 witness: an upstream fetch failure message without the substring
`not found` is answered with 500. -/
theorem c3_status_by_message_witness :
    onErrorStatus (errMessage (AppErr.upstreamFetch "connection reset")) = 500 :=
  (c3_status_by_message AppErr.cacheNull "x" "y" "connection reset").2.2.2.2.1 (by decide)

/-- C4 counterexample: a state whose timestamp is fresh (`some 0` at time
0) but whose cached catalog value is absent: the resolver does not call
refresh (the claim requires it to) and instead fails with the null-read
error. -/
theorem c4_counterexample :
    refreshCalled ⟨some 0, none⟩ 0 = false
    ∧ lookupCatalog ⟨some 0, none⟩ 0 [] = Except.error AppErr.cacheNull := by decide

/-- C4 (amended): refresh is called exactly when the Expiry Policy reports
the cache expired; when not expired the cached value is deserialized, and
an absent or corrupt cached value surfaces as an error (the cache-null or
cache-corrupt failure) rather than triggering a refresh. -/
theorem c4_refresh_iff_expired (st : CacheState) (now : Int) (remote : List (List Image)) :
    (isExpired st.lastCached now = true →
      refreshCalled st now = true
      ∧ lookupCatalog st now remote = Except.ok (fetchAll remote).1)
    ∧ (isExpired st.lastCached now = false →
      refreshCalled st now = false
      ∧ lookupCatalog st now remote = readCachedImages st.images
      ∧ (st.images = none → lookupCatalog st now remote = Except.error AppErr.cacheNull)
      ∧ (st.images = some none → lookupCatalog st now remote = Except.error AppErr.cacheCorrupt)
      ∧ ∀ imgs, st.images = some (some imgs) →
          lookupCatalog st now remote = Except.ok imgs) := by
  constructor
  · intro h
    simp [refreshCalled, lookupCatalog, h]
  · intro h
    refine ⟨by simp [refreshCalled, h], by simp [lookupCatalog, h], ?_, ?_, ?_⟩
    · intro hi
      simp [lookupCatalog, h, hi, readCachedImages]
    · intro hi
      simp [lookupCatalog, h, hi, readCachedImages]
    · intro imgs hi
      simp [lookupCatalog, h, hi, readCachedImages]

/-- C4 witness: with no stored timestamp the cache is expired, refresh is
invoked and its accumulated catalog is used. -/
theorem c4_refresh_iff_expired_witness :
    refreshCalled ⟨none, none⟩ 0 = true
    ∧ lookupCatalog ⟨none, none⟩ 0 [] = Except.ok (fetchAll []).1 :=
  (c4_refresh_iff_expired ⟨none, none⟩ 0 []).1 (by decide)

/-- C5 counterexample: at the instant `now - lastFetchedAt` equals exactly
the 24-hour TTL (86400000 ms), `isExpired` returns false, whereas the
claim requires the cache to be expired there. -/
theorem c5_counterexample :
    isExpired (some 0) 86400000 = false ∧ (86400000 : Int) - 0 = TTL_MS := by decide

/-- C5 (amended): `isExpired` returns true when the stored timestamp is
absent, and otherwise returns true iff `now - lastFetchedAt` strictly
exceeds the 24-hour TTL; at exactly the TTL boundary the cache is not yet
expired. -/
theorem c5_expiry_strict (t now : Int) :
    isExpired none now = true
    ∧ (isExpired (some t) now = true ↔ now - t > TTL_MS) := by
  refine ⟨rfl, ?_⟩
  simp [isExpired, jsTimeExpired, TTL_MS]
  omega

/-- C6 counterexample: against an upstream response with a single
Content-Type header, the relayed response's headers are not the upstream
headers plus only the Content-Disposition header, because the code also
appends X-Original-Url and X-Image-Id. -/
theorem c6_counterexample :
    (relayResponse ⟨200, [("Content-Type", "image/png")], "body"⟩
        ⟨"id1", "cat.png", "", false, []⟩ "https://x/id1/public").headers
      ≠ [("Content-Type", "image/png")]
        ++ [("Content-Disposition", "inline; filename=\"cat.png\"")] := by decide

/-- C6 (amended): the relayed response re-emits the upstream body and
status and appends exactly three headers after the upstream ones:
Content-Disposition (inline with the original filename), X-Original-Url
(the variant URL fetched) and X-Image-Id (the entry id); all other headers
are exactly those of the upstream variant response. -/
theorem c6_three_headers (r : JsResponse) (img : Image) (url : String) :
    (relayResponse r img url).status = r.status
    ∧ (relayResponse r img url).body = r.body
    ∧ (relayResponse r img url).headers
      = r.headers
        ++ [("Content-Disposition", "inline; filename=\"" ++ img.filename ++ "\""),
            ("X-Original-Url", url), ("X-Image-Id", img.id)] := by
  refine ⟨rfl, rfl, ?_⟩
  simp [relayResponse, appendHeader, cloneResponse]

/-- C7: when pagination completes, the `fetchImages` promise settles with
the accumulated catalog (its first settlement call), whether or not the
subsequent KV persistence succeeds; a persistence failure only issues a
later `reject`, which cannot change the already-settled outcome. -/
theorem c7_resolve_before_persist (pages : List (List Image)) (persistOk : Bool) :
    promiseOutcome (refreshSettleEvents pages persistOk)
      = some (SettleEvent.resolveImages (fetchAll pages).1)
    ∧ promiseOutcome (refreshSettleEvents pages false)
      = promiseOutcome (refreshSettleEvents pages true) := by
  cases persistOk <;> simp [promiseOutcome, refreshSettleEvents]

/-- C8: `resolveVariant` treats an absent requested variant exactly as the
literal name `public`, returns the first variant URL in sequence order
whose string value ends with the requested name, and fails with the
variant `NotFoundError` when no variant URL has that suffix. -/
theorem c8_variant_suffix_match (img : Image) (req : Option String) (url : String) :
    resolveVariant img none = resolveVariant img (some "public")
    ∧ (resolveVariant img req = Except.ok url →
      jsEndsWith url (req.getD "public") = true
      ∧ ∃ pre post, img.variants = pre ++ url :: post
          ∧ ∀ v2 ∈ pre, jsEndsWith v2 (req.getD "public") = false)
    ∧ ((∀ v2 ∈ img.variants, jsEndsWith v2 (req.getD "public") = false) →
      resolveVariant img req = Except.error (AppErr.variantNotFound (req.getD "public"))) := by
  have hunfold : ∀ (i : Image) (rq : Option String),
      resolveVariant i rq
        = match i.variants.find? (fun v2 => jsEndsWith v2 (rq.getD "public")) with
          | some u => Except.ok u
          | none => Except.error (AppErr.variantNotFound (rq.getD "public")) :=
    fun _ _ => rfl
  refine ⟨rfl, ?_, ?_⟩
  · intro h
    rw [hunfold] at h
    split at h
    · next u hfind =>
      simp only [Except.ok.injEq] at h
      subst h
      obtain ⟨hu, pre, post, hsplit, hpre⟩ := List.find?_eq_some.mp hfind
      exact ⟨hu, pre, post, hsplit, fun v2 hv => by simpa using hpre v2 hv⟩
    · next => simp at h
  · intro hall
    have hnone : img.variants.find? (fun v2 => jsEndsWith v2 (req.getD "public")) = none :=
      List.find?_eq_none.mpr (fun v2 hv => by simp [hall v2 hv])
    rw [hunfold, hnone]

/-- C8 witness: an entry with no variants resolves the default `public`
variant to the variant-not-found error. -/
theorem c8_variant_suffix_match_witness :
    resolveVariant ⟨"i", "f", "", false, []⟩ none
      = Except.error (AppErr.variantNotFound (((none : Option String)).getD "public")) :=
  (c8_variant_suffix_match ⟨"i", "f", "", false, []⟩ none "u").2.2 (by simp)

/-- C9 counterexample: the needle `cat.png` is the exact filename of the
second stored entry, yet the resolver returns the first entry
(`catalog.png`), because the needle is stripped to `cat`, which is a
filename prefix of the earlier entry. -/
theorem c9_counterexample :
    resolveEntry "cat.png" [⟨"z9", "catalog.png", "", false, []⟩,
        ⟨"y8", "cat.png", "", false, []⟩]
      = Except.ok ⟨"z9", "catalog.png", "", false, []⟩
    ∧ (⟨"z9", "catalog.png", "", false, []⟩ : Image) ≠ ⟨"y8", "cat.png", "", false, []⟩
    ∧ (⟨"y8", "cat.png", "", false, []⟩ : Image) ∈ [⟨"z9", "catalog.png", "", false, []⟩,
        (⟨"y8", "cat.png", "", false, []⟩ : Image)]
    ∧ "cat.png" = (⟨"y8", "cat.png", "", false, []⟩ : Image).filename := by decide

/-- C9 (amended): for a needle equal to a stored entry's exact filename or
id, `resolve` succeeds and returns the first entry in catalog order whose
filename or id starts with the stripped needle, which need not be the
entry whose exact filename or id was supplied. -/
theorem c9_exact_needle_resolves (imgs : List Image) (e : Image) (needle : String)
    (hmem : e ∈ imgs) (hneedle : needle = e.filename ∨ needle = e.id) :
    ∃ r, resolveEntry needle imgs = Except.ok r
      ∧ entryMatches (stripExt needle) r = true := by
  have hmatch : entryMatches (stripExt needle) e = true := by
    rcases hneedle with h | h
    · subst h
      simp [entryMatches, stripExt_isPrefix]
    · subst h
      simp [entryMatches, stripExt_isPrefix]
  have hsome : (imgs.find? (entryMatches (stripExt needle))).isSome :=
    List.find?_isSome.mpr ⟨e, hmem, hmatch⟩
  obtain ⟨r, hr⟩ := Option.isSome_iff_exists.mp hsome
  exact ⟨r, by simp [resolveEntry, findImage, hr], List.find?_some hr⟩

/-- C9 witness: the amended theorem applied to a singleton catalog and a
needle equal to the stored entry's exact filename. -/
theorem c9_exact_needle_resolves_witness :
    ∃ r, resolveEntry "cat.png" [⟨"y8", "cat.png", "", false, []⟩] = Except.ok r
      ∧ entryMatches (stripExt "cat.png") r = true :=
  c9_exact_needle_resolves [⟨"y8", "cat.png", "", false, []⟩]
    ⟨"y8", "cat.png", "", false, []⟩ "cat.png" (by simp) (Or.inl rfl)

end Eye
